import Mathlib

/-!
Shallow embedding of the Wavee SMS assistant's dispatch-and-session core.

The definitions below are translated from the TypeScript sources:
`src/utils/text.ts` (command classifiers), `src/services/gpsService.ts`
(GPS coordinate parsing, including the JavaScript regular expressions it
relies on), `src/services/rateLimiter.ts` (fixed-window rate limiter),
`src/services/openStreetMapService.ts` (place-category keyword matching),
the `SessionService` and `UserService` database accessors, and the SMS
dispatch handlers (`handleActiveUserMessage` and its sub-handlers).

Strings are processed as `List Char` throughout, mirroring JavaScript
string operations character by character.  Machine reals that only ever
hold decimal coordinate literals are modelled as `ℚ`; timestamps are
naturals (milliseconds); credit balances are integers (the database
column is INTEGER and JavaScript arithmetic on it is exact in this range).
-/

namespace Wavee

/-- JavaScript `toLowerCase` restricted to the alphabet this program uses:
ASCII letters plus the Swedish letters Å, Ä, Ö (other characters are
returned unchanged, which agrees with JavaScript on every character
occurring in the modelled message texts). -/
def jsToLower (c : Char) : Char :=
  if 'A' ≤ c ∧ c ≤ 'Z' then Char.ofNat (c.toNat + 32)
  else if c = 'Å' then 'å'
  else if c = 'Ä' then 'ä'
  else if c = 'Ö' then 'ö'
  else c

/-- Whitespace as recognized by JavaScript `trim` (the subset that can occur
in SMS bodies: space, tab, line feed, vertical tab, form feed, carriage
return). -/
def isJsWhitespace (c : Char) : Bool :=
  c = ' ' || c = '\t' || c = '\n' || c = '\x0b' || c = '\x0c' || c = '\r'

/-- JavaScript `String.prototype.trim` on a character list. -/
def trimJS (s : List Char) : List Char :=
  ((s.dropWhile isJsWhitespace).reverse.dropWhile isJsWhitespace).reverse

/-- `message.trim().toLowerCase()` — the normalization every command
classifier in `src/utils/text.ts` applies first. -/
def normalizeCmd (message : String) : List Char :=
  (trimJS message.data).map jsToLower

/-- `isYesConfirmation` from `src/utils/text.ts`. -/
def isYesConfirmation (message : String) : Bool :=
  let n := normalizeCmd message
  n == "yes".data || n == "y".data || n == "ja".data || n == "j".data

/-- `isStopCommand` from `src/utils/text.ts`. -/
def isStopCommand (message : String) : Bool :=
  let n := normalizeCmd message
  n == "stop".data || n == "unsubscribe".data || n == "avsluta".data

/-- `isHelpCommand` from `src/utils/text.ts`. -/
def isHelpCommand (message : String) : Bool :=
  let n := normalizeCmd message
  n == "help".data || n == "hjälp".data || n == "info".data

/-- `isMoreCommand` from `src/utils/text.ts`. -/
def isMoreCommand (message : String) : Bool :=
  let n := normalizeCmd message
  n == "more".data || n == "more info".data || n == "tell me more".data

/-- `isLocationQueryCommand` from `src/utils/text.ts`: the exact-match set
is "where am i", "where am i?", "var är jag", "var är jag?",
"my location", "min position". -/
def isLocationQueryCommand (message : String) : Bool :=
  let n := normalizeCmd message
  n == "where am i".data ||
  n == "where am i?".data ||
  n == "var är jag".data ||
  n == "var är jag?".data ||
  n == "my location".data ||
  n == "min position".data

/-!
## A small backtracking regular-expression engine

`GPSService.parseLocation` and `OpenStreetMapService` drive JavaScript
regular expressions.  The patterns the source uses only ever apply
quantifiers (`*`, `+`, `?`) to single-character classes, so the engine
models Kleene star over a character class (`starC`) directly, which keeps
every definition structurally recursive.  `mrun` enumerates the engine's
completions in JavaScript's backtracking preference order (greedy
quantifiers, left alternative first), so the head of the list is the
match JavaScript would produce.
-/

/-- Abstract syntax of the regular expressions used by the source. -/
inductive RE where
  | eps
  | cls (p : Char → Bool)
  | seq (a b : RE)
  | alt (a b : RE)
  | starC (p : Char → Bool)
  | opt (a : RE)
  | group (n : Nat) (a : RE)

/-- Captured groups: group index paired with the captured characters. -/
abbrev Caps := List (Nat × List Char)

/-- Possible remainders after greedily matching `p*`, most-consumed first
(JavaScript's greedy preference order). -/
def starRests (p : Char → Bool) : List Char → List (List Char)
  | [] => [[]]
  | c :: s => if p c then (starRests p s) ++ [c :: s] else [c :: s]

/-- All completions of a pattern against a prefix of the input, each as
(remaining input, captures), in JavaScript backtracking order. -/
def mrun : RE → List Char → List (List Char × Caps)
  | .eps, s => [(s, [])]
  | .cls _, [] => []
  | .cls p, c :: s => if p c then [(s, [])] else []
  | .seq a b, s =>
      (mrun a s).flatMap (fun r =>
        (mrun b r.1).map (fun r2 => (r2.1, r.2 ++ r2.2)))
  | .alt a b, s => mrun a s ++ mrun b s
  | .starC p, s => (starRests p s).map (fun r => (r, []))
  | .opt a, s => mrun a s ++ [(s, [])]
  | .group n a, s =>
      (mrun a s).map (fun r => (r.1, (n, s.take (s.length - r.1.length)) :: r.2))

/-- Match a pattern anchored at both ends (`^...$`): first backtracking
completion that consumes the whole input. -/
def matchFull (re : RE) (s : List Char) : Option Caps :=
  (((mrun re s).filter (fun r => r.1.isEmpty)).head?).map (fun r => r.2)

/-- Unanchored search (JavaScript `String.prototype.match` without `^`):
try each start position left to right, take the first completion. -/
def searchRe (re : RE) : List Char → Option Caps
  | [] => ((mrun re []).head?).map (fun r => r.2)
  | c :: s =>
    match (mrun re (c :: s)).head? with
    | some r => some r.2
    | none => searchRe re s

/-- `\d` -/
def isDigitCh (c : Char) : Bool := '0' ≤ c && c ≤ '9'

/-- `.` (any character but a line terminator) -/
def dotCh (c : Char) : Bool := !(c = '\n' || c = '\r')

/-- A case-sensitive literal character. -/
def chr (c : Char) : RE := .cls (fun x => x == c)

/-- A case-insensitive literal character (`/i` flag). -/
def chrI (c : Char) : RE := .cls (fun x => jsToLower x == jsToLower c)

/-- A case-insensitive literal string. -/
def litI (s : String) : RE := (s.data.map chrI).foldr .seq .eps

/-- `p+` as `p` followed by `p*`. -/
def plusC (p : Char → Bool) : RE := .seq (.cls p) (.starC p)

/-- The capture group `(-?\d+[.,]?\d*)` shared by every coordinate
pattern in `GPSService.parseLocation`. -/
def numGroup (n : Nat) : RE :=
  .group n (.seq (.opt (chr '-'))
    (.seq (plusC isDigitCh)
      (.seq (.opt (.cls (fun c => c == '.' || c == ','))) (.starC isDigitCh))))

/-- `/maps\.google\.com.*[?&]q=(-?\d+[.,]?\d*),(-?\d+[.,]?\d*)/i` -/
def googleRe1 : RE :=
  .seq (litI "maps.google.com")
    (.seq (.starC dotCh)
      (.seq (.cls (fun c => c == '?' || c == '&'))
        (.seq (litI "q=")
          (.seq (numGroup 1) (.seq (chr ',') (numGroup 2))))))

/-- `/google\.com\/maps.*@(-?\d+[.,]?\d*),(-?\d+[.,]?\d*)/i` -/
def googleRe2 : RE :=
  .seq (litI "google.com/maps")
    (.seq (.starC dotCh)
      (.seq (chr '@')
        (.seq (numGroup 1) (.seq (chr ',') (numGroup 2)))))

/-- `/maps\.apple\.com.*[?&](?:ll|coordinate)=(-?\d+[.,]?\d*),(-?\d+[.,]?\d*)/i` -/
def appleRe : RE :=
  .seq (litI "maps.apple.com")
    (.seq (.starC dotCh)
      (.seq (.cls (fun c => c == '?' || c == '&'))
        (.seq (.alt (litI "ll") (litI "coordinate"))
          (.seq (chr '=')
            (.seq (numGroup 1) (.seq (chr ',') (numGroup 2)))))))

/-- `/^(-?\d+[.,]?\d*)\s*,\s*(-?\d+[.,]?\d*)$/` (anchoring handled by
`matchFull`). -/
def rawCoordPattern1 : RE :=
  .seq (numGroup 1)
    (.seq (.starC isJsWhitespace)
      (.seq (chr ',')
        (.seq (.starC isJsWhitespace) (numGroup 2))))

/-- `/(-?\d+[.,]?\d*)°?\s*[NS],?\s*(-?\d+[.,]?\d*)°?\s*[EWÖV]/i` -/
def rawCoordPattern2 : RE :=
  .seq (numGroup 1)
    (.seq (.opt (chr '°'))
      (.seq (.starC isJsWhitespace)
        (.seq (.cls (fun c => c == 'N' || c == 'S' || c == 'n' || c == 's'))
          (.seq (.opt (chr ','))
            (.seq (.starC isJsWhitespace)
              (.seq (numGroup 2)
                (.seq (.opt (chr '°'))
                  (.seq (.starC isJsWhitespace)
                    (.cls (fun c =>
                      c == 'E' || c == 'W' || c == 'Ö' || c == 'V' ||
                      c == 'e' || c == 'w' || c == 'ö' || c == 'v'))))))))))

/-- `/lat[itude]*\s*:?\s*(-?\d+[.,]?\d*)[,\s]+lon[gitude]*\s*:?\s*(-?\d+[.,]?\d*)/i` -/
def rawCoordPattern3 : RE :=
  .seq (litI "lat")
    (.seq (.starC (fun c => jsToLower c == 'i' || jsToLower c == 't' ||
                            jsToLower c == 'u' || jsToLower c == 'd' || jsToLower c == 'e'))
      (.seq (.starC isJsWhitespace)
        (.seq (.opt (chr ':'))
          (.seq (.starC isJsWhitespace)
            (.seq (numGroup 1)
              (.seq (plusC (fun c => c == ',' || isJsWhitespace c))
                (.seq (litI "lon")
                  (.seq (.starC (fun c => jsToLower c == 'g' || jsToLower c == 'i' ||
                                          jsToLower c == 't' || jsToLower c == 'u' ||
                                          jsToLower c == 'd' || jsToLower c == 'e'))
                    (.seq (.starC isJsWhitespace)
                      (.seq (.opt (chr ':'))
                        (.seq (.starC isJsWhitespace) (numGroup 2))))))))))))

/-!
## `GPSService.parseLocation`
-/

/-- Decimal coordinates; the JavaScript floats only ever hold exact
decimal literals here, modelled as rationals. -/
structure Coordinates where
  lat : ℚ
  lon : ℚ
deriving DecidableEq, Repr

/-- The `source` discriminator of `ParsedLocation`. -/
inductive LocSource where
  | google_maps | apple_maps | raw_coords | plus_code
deriving DecidableEq, Repr

/-- `ParsedLocation` from `gpsService.ts`. -/
structure ParsedLocation where
  coordinates : Coordinates
  source : LocSource
  originalText : List Char
deriving DecidableEq, Repr

/-- The capture of group `n` (empty if the group did not participate;
never the case for the patterns above when they match). -/
def capGet (caps : Caps) (n : Nat) : List Char :=
  (((caps.find? (fun p => p.1 == n))).map (fun p => p.2)).getD []

/-- JavaScript `s.replace(',', '.')`: replace the first comma only. -/
def replaceFirstComma : List Char → List Char
  | [] => []
  | c :: s => if c = ',' then '.' :: s else c :: replaceFirstComma s

/-- Digit run to a natural number. -/
def digitsToNat (l : List Char) : Nat :=
  l.foldl (fun acc c => acc * 10 + (c.toNat - 48)) 0

/-- Powers of ten (structural, so it reduces in the kernel). -/
def pow10 : Nat → Nat
  | 0 => 1
  | n + 1 => 10 * pow10 n

/-- JavaScript `parseFloat` on the strings produced by the coordinate
capture groups (shape `-?\d+\.?\d*` after comma replacement): the exact
decimal value `±(intPart + frac / 10 ^ |frac|)` as a rational. -/
def parseFloatQ (s : List Char) : ℚ :=
  let neg := match s with
    | '-' :: _ => true
    | _ => false
  let s1 := match s with
    | '-' :: rest => rest
    | _ => s
  let intPart := s1.takeWhile isDigitCh
  let rest := s1.dropWhile isDigitCh
  let frac := match rest with
    | '.' :: r => r.takeWhile isDigitCh
    | _ => []
  let mag : ℚ :=
    Rat.divInt (digitsToNat intPart * pow10 frac.length + digitsToNat frac) (pow10 frac.length)
  if neg then -mag else mag

/-- Both captured numbers, comma normalized to dot, as coordinates. -/
def coordsFromCaps (caps : Caps) : Coordinates :=
  ⟨parseFloatQ (replaceFirstComma (capGet caps 1)),
   parseFloatQ (replaceFirstComma (capGet caps 2))⟩

/-- `GPSService.isValidCoordinate`. -/
def isValidCoordinate (lat lon : ℚ) : Bool :=
  decide (-90 ≤ lat) && decide (lat ≤ 90) && decide (-180 ≤ lon) && decide (lon ≤ 180)

/-- The `coordPatterns` loop body of `parseLocation`: on a match whose
coordinates validate, return them; otherwise fall through to the next
pattern.  The boolean records whether the pattern is anchored (`^...$`). -/
def tryRawPatterns : List (RE × Bool) → List Char → Option Coordinates
  | [], _ => none
  | (re, anchored) :: rest, text =>
    match (if anchored then matchFull re text else searchRe re text) with
    | some caps =>
      let c := coordsFromCaps caps
      if isValidCoordinate c.lat c.lon then some c else tryRawPatterns rest text
    | none => tryRawPatterns rest text

/-- `GPSService.parseLocation`: Google Maps links, then Apple Maps links
(both unvalidated), then the three raw-coordinate patterns (validated). -/
def parseLocation (message : String) : Option ParsedLocation :=
  let text := trimJS message.data
  match (searchRe googleRe1 text).orElse (fun _ => searchRe googleRe2 text) with
  | some caps => some ⟨coordsFromCaps caps, .google_maps, text⟩
  | none =>
  match searchRe appleRe text with
  | some caps => some ⟨coordsFromCaps caps, .apple_maps, text⟩
  | none =>
  match tryRawPatterns
      [(rawCoordPattern1, true), (rawCoordPattern2, false), (rawCoordPattern3, false)] text with
  | some c => some ⟨c, .raw_coords, text⟩
  | none => none

/-- `GPSService.hasLocation`. -/
def hasLocation (message : String) : Bool :=
  (parseLocation message).isSome

/-!
## `RateLimiter` (`src/services/rateLimiter.ts`)

The limiter keeps one `(count, resetAt)` entry per `(identity, window)`
key.  Different identities and different windows never share an entry, so
the per-key step function `isAllowed` and the per-identity triple
`RLState` capture the whole map.
-/

/-- `RateLimitEntry`. -/
structure RLEntry where
  count : Nat
  resetAt : Nat
deriving DecidableEq, Repr

/-- `RateLimiter.isAllowed` for a single `(identity, window)` key:
returns the allow/deny verdict and the entry afterwards. -/
def isAllowed (maxLimit windowDuration now : Nat) (entry : Option RLEntry) :
    Bool × Option RLEntry :=
  match entry with
  | none => (true, some ⟨1, now + windowDuration⟩)
  | some e =>
    if e.resetAt < now then (true, some ⟨1, now + windowDuration⟩)
    else if maxLimit ≤ e.count then (false, some e)
    else (true, some ⟨e.count + 1, e.resetAt⟩)

/-- The three fixed windows. -/
inductive RLWindow where
  | minute | hour | day
deriving DecidableEq, Repr

/-- The constructor arguments `(maxPerMinute, maxPerHour, maxPerDay)`. -/
structure RateLimiterConfig where
  maxPerMinute : Nat
  maxPerHour : Nat
  maxPerDay : Nat
deriving DecidableEq, Repr

/-- Window durations in milliseconds (`getWindowDuration`). -/
def minuteMs : Nat := 60 * 1000

/-- One hour in milliseconds. -/
def hourMs : Nat := 60 * 60 * 1000

/-- One day in milliseconds. -/
def dayMs : Nat := 24 * 60 * 60 * 1000

/-- One identity's three window entries. -/
structure RLState where
  minute : Option RLEntry
  hour : Option RLEntry
  day : Option RLEntry
deriving DecidableEq, Repr

/-- `RateLimiter.checkLimits`: minute, then hour, then day; the first
denial short-circuits.  `none` means allowed. -/
def checkLimits (cfg : RateLimiterConfig) (now : Nat) (st : RLState) :
    Option RLWindow × RLState :=
  let m := isAllowed cfg.maxPerMinute minuteMs now st.minute
  if m.1 = false then (some .minute, { st with minute := m.2 })
  else
    let h := isAllowed cfg.maxPerHour hourMs now st.hour
    if h.1 = false then (some .hour, { st with minute := m.2, hour := h.2 })
    else
      let d := isAllowed cfg.maxPerDay dayMs now st.day
      if d.1 = false then (some .day, { st with minute := m.2, hour := h.2, day := d.2 })
      else (none, { st with minute := m.2, hour := h.2, day := d.2 })

/-- Iterate `isAllowed` on one key over a list of call times, collecting
the verdicts. -/
def runIsAllowed (maxLimit dur : Nat) (entry : Option RLEntry) :
    List Nat → List Bool × Option RLEntry
  | [] => ([], entry)
  | t :: ts =>
    let r := isAllowed maxLimit dur t entry
    let rest := runIsAllowed maxLimit dur r.2 ts
    (r.1 :: rest.1, rest.2)

/-- An entry that does not cover time `t`: absent, or reset time passed. -/
def freshFor (entry : Option RLEntry) (t : Nat) : Prop :=
  match entry with
  | none => True
  | some e => e.resetAt < t

/-!
## `OpenStreetMapService` keyword classifiers and the place-search
keyword list from the SMS route
-/

/-- Whether `needle` is a prefix of `hay` (character lists). -/
def startsWithCh : List Char → List Char → Bool
  | [], _ => true
  | _ :: _, [] => false
  | c :: cs, d :: ds => c == d && startsWithCh cs ds

/-- JavaScript `hay.includes(needle)` on character lists. -/
def containsSub (needle : List Char) : List Char → Bool
  | [] => needle.isEmpty
  | c :: s => startsWithCh needle (c :: s) || containsSub needle s

/-- `POICategory` from `openStreetMapService.ts`. -/
inductive POICategory where
  | gas_station | restaurant | cafe | supermarket | hospital | pharmacy
  | hotel | camping | shelter | emergency | parking | atm
deriving DecidableEq, Repr

/-- The keyword-alternation table of `parseCategoryFromQuery`, in source
order (iteration order of `Object.entries` is insertion order).  Each
regex in the source is an alternation of literal keywords, so testing it
is testing each keyword for substring containment. -/
def categoryPatterns : List (List String × POICategory) :=
  [ (["bensin", "gas", "tanken", "fuel"], .gas_station),
    (["restaurang", "restaurant", "mat", "food", "äta", "eat"], .restaurant),
    (["café", "cafe", "kaffe", "coffee"], .cafe),
    (["affär", "butik", "supermarket", "mataffär", "shop", "store"], .supermarket),
    (["sjukhus", "hospital", "läkare", "doctor", "akuten", "emergency room"], .hospital),
    (["apotek", "pharmacy", "medicin", "medicine"], .pharmacy),
    (["hotell", "hotel", "boende", "logi", "accommodation"], .hotel),
    (["camping", "campground", "husvagn", "caravan"], .camping),
    (["stuga", "skydd", "shelter", "hut", "cabin"], .shelter),
    (["nöd", "emergency", "sos", "hjälp", "help"], .emergency),
    (["parkering", "parking", "parkera"], .parking),
    (["bankomat", "atm", "kontanter", "cash"], .atm) ]

/-- `OpenStreetMapService.parseCategoryFromQuery` on a character list:
lower-case the query, return the first table row one of whose keywords
occurs in it. -/
def parseCategoryFromQueryL (query : List Char) : Option POICategory :=
  let normalized := query.map jsToLower
  ((categoryPatterns.find? (fun pc =>
      pc.1.any (fun kw => containsSub kw.data normalized)))).map (fun pc => pc.2)

/-- `parseCategoryFromQuery` on a string. -/
def parseCategoryFromQuery (query : String) : Option POICategory :=
  parseCategoryFromQueryL query.data

/-- The `placeKeywords` list of `handlePlaceSearch` in the SMS route. -/
def placeKeywords : List String :=
  ["närmaste", "nearest", "hitta", "find", "var är", "where is",
   "show me", "visa", "sök", "search", "leta", "look for"]

/-- `placeKeywords.some(keyword => messageBody.toLowerCase().includes(keyword))`. -/
def hasPlaceKeyword (messageBody : String) : Bool :=
  placeKeywords.any (fun kw => containsSub kw.data (messageBody.data.map jsToLower))

/-!
## Database model: users, sessions, transactions

The tables of `db/database.ts` restricted to the columns the dispatch
core reads or writes.  `users` is an association list on the primary key
`phone_number`; `sessions` may hold several rows per identity (the source
INSERTs new rows and reads back `ORDER BY updated_at DESC LIMIT 1`);
`transactions` is append-only.  Timestamps are milliseconds.
-/

/-- `users.status`. -/
inductive UserStatus where
  | pending | active | inactive
deriving DecidableEq, Repr

/-- A `users` row (the columns the dispatch core touches). -/
structure UserRow where
  status : UserStatus
  credits_remaining : ℤ
deriving DecidableEq, Repr

/-- `transactions.type`. -/
inductive TxKind where
  | purchase | usage | refund
deriving DecidableEq, Repr

/-- A `transactions` row. -/
structure Txn where
  phone : String
  kind : TxKind
  credits_delta : ℤ
  description : String
deriving DecidableEq, Repr

/-- The JSON blob stored in `sessions.last_location`. -/
structure LocFix where
  lat : ℚ
  lon : ℚ
  timestamp : Nat
deriving DecidableEq, Repr

/-- A `sessions` row. -/
structure SessionRow where
  id : Nat
  phone : String
  messages : List String
  last_ai_response : Option String
  last_location : Option LocFix
  updated_at : Nat
deriving DecidableEq, Repr

/-- The persistent store. -/
structure DB where
  users : List (String × UserRow)
  sessions : List SessionRow
  transactions : List Txn
deriving DecidableEq, Repr

/-!
## `UserService`
-/

/-- Primary-key lookup in the `users` association list. -/
def lookupUser : List (String × UserRow) → String → Option UserRow
  | [], _ => none
  | (k, v) :: tl, phone => if k == phone then some v else lookupUser tl phone

/-- `UserService.getUser`: `SELECT * FROM users WHERE phone_number = ?`. -/
def getUser (db : DB) (phone : String) : Option UserRow :=
  lookupUser db.users phone

/-- `UserService.hasCredits`: `user ? user.credits_remaining >= required : false`. -/
def hasCredits (db : DB) (phone : String) (required : ℤ) : Bool :=
  match getUser db phone with
  | some u => decide (required ≤ u.credits_remaining)
  | none => false

/-- `UPDATE users SET credits_remaining = f(credits_remaining) WHERE phone_number = ?`. -/
def mapCredits (db : DB) (phone : String) (f : ℤ → ℤ) : DB :=
  { db with users := db.users.map (fun u =>
      if u.1 == phone then (u.1, { u.2 with credits_remaining := f u.2.credits_remaining })
      else u) }

/-- `UserService.deductCredits`: `false` and no write if the user is
missing or the balance is below the amount, otherwise subtract and
return `true`. -/
def deductCredits (db : DB) (phone : String) (credits : ℤ) : Bool × DB :=
  match getUser db phone with
  | none => (false, db)
  | some u =>
    if u.credits_remaining < credits then (false, db)
    else (true, mapCredits db phone (fun b => b - credits))

/-- `UserService.addCredits`. -/
def addCredits (db : DB) (phone : String) (credits : ℤ) : DB :=
  mapCredits db phone (fun b => b + credits)

/-- `UserService.logTransaction`: append-only INSERT. -/
def logTransaction (db : DB) (phone : String) (kind : TxKind) (delta : ℤ)
    (description : String) : DB :=
  { db with transactions := db.transactions ++ [⟨phone, kind, delta, description⟩] }

/-- `UPDATE users SET status = ? WHERE phone_number = ?`. -/
def setStatus (db : DB) (phone : String) (st : UserStatus) : DB :=
  { db with users := db.users.map (fun u =>
      if u.1 == phone then (u.1, { u.2 with status := st }) else u) }

/-- `UserService.deactivateUser` (STOP command). -/
def deactivateUser (db : DB) (phone : String) : DB :=
  setStatus db phone .inactive

/-- `UserService.activateUser`. -/
def activateUser (db : DB) (phone : String) : DB :=
  setStatus db phone .active

/-!
## `SessionService`
-/

/-- `SESSION_TIMEOUT_MINUTES = 30`, in milliseconds. -/
def sessionTimeoutMs : Nat := 30 * 60 * 1000

/-- `MAX_MESSAGES = 3`. -/
def maxMessages : Nat := 3

/-- Location fixes expire after 24 hours (`getLastLocation`). -/
def locationExpiryMs : Nat := 24 * 60 * 60 * 1000

/-- `SELECT * FROM sessions WHERE phone_number = ? ORDER BY updated_at
DESC LIMIT 1`: the matching row with the greatest `updated_at` (on ties
the earliest-inserted row; the source's ordering of ties is
unspecified). -/
def latestSessionRow (rows : List SessionRow) (phone : String) : Option SessionRow :=
  (rows.filter (fun r => r.phone == phone)).foldl
    (fun best r =>
      match best with
      | none => some r
      | some b => if b.updated_at < r.updated_at then some r else some b)
    none

/-- `SessionService.isSessionExpired`: last update more than 30 minutes
before `now`. -/
def isSessionExpired (now : Nat) (s : SessionRow) : Bool :=
  decide (s.updated_at + sessionTimeoutMs < now)

/-- `SessionService.getSession`: latest row, treated as absent when
expired. -/
def getSession (db : DB) (phone : String) (now : Nat) : Option SessionRow :=
  match latestSessionRow db.sessions phone with
  | none => none
  | some s => if isSessionExpired now s then none else some s

/-- A fresh SERIAL id: larger than every existing row id. -/
def freshId (rows : List SessionRow) : Nat :=
  (rows.map (fun r => r.id)).foldl max 0 + 1

/-- `SessionService.createSession`: INSERT a row whose message list holds
just the new message; `updated_at` defaults to the current time. -/
def createSession (db : DB) (phone : String) (userMessage : String) (now : Nat) : DB :=
  { db with sessions :=
      db.sessions ++ [⟨freshId db.sessions, phone, [userMessage], none, none, now⟩] }

/-- The message-window update inside `SessionService.updateSession`:
push, then keep only the last `MAX_MESSAGES` when over capacity. -/
def pushMessage (messages : List String) (m : String) : List String :=
  let pushed := messages ++ [m]
  if maxMessages < pushed.length then pushed.drop (pushed.length - maxMessages) else pushed

/-- `SessionService.updateSession`: create a session when none is live
(only if a user message is present); otherwise push the optional user
message with FIFO eviction, overwrite `last_ai_response`, and refresh
`updated_at`. -/
def updateSession (db : DB) (phone : String) (userMessage : Option String)
    (aiResponse : String) (now : Nat) : DB :=
  match getSession db phone now with
  | none =>
    match userMessage with
    | some m => createSession db phone m now
    | none => db
  | some s =>
    let msgs := match userMessage with
      | some m => pushMessage s.messages m
      | none => s.messages
    { db with sessions := db.sessions.map (fun r =>
        if r.id == s.id then
          { r with messages := msgs, last_ai_response := some aiResponse, updated_at := now }
        else r) }

/-- `SessionService.getContext`: `([], null)` when no live session; a
falsy (empty) stored reply is surfaced as `null`. -/
def getContext (db : DB) (phone : String) (now : Nat) : List String × Option String :=
  match getSession db phone now with
  | none => ([], none)
  | some s =>
    (s.messages,
     match s.last_ai_response with
     | some r => if r == "" then none else some r
     | none => none)

/-- `SessionService.saveLocation`: `UPDATE sessions SET last_location = ?
WHERE phone_number = ?` — a plain UPDATE, touching every existing row of
the identity and no row when none exists. -/
def saveLocation (db : DB) (phone : String) (lat lon : ℚ) (now : Nat) : DB :=
  { db with sessions := db.sessions.map (fun r =>
      if r.phone == phone then { r with last_location := some ⟨lat, lon, now⟩ } else r) }

/-- `SessionService.getLastLocation`: the latest row's fix, `none` when
absent or older than 24 hours (session expiry is not consulted). -/
def getLastLocation (db : DB) (phone : String) (now : Nat) : Option (ℚ × ℚ) :=
  match latestSessionRow db.sessions phone with
  | none => none
  | some s =>
    match s.last_location with
    | none => none
    | some f => if f.timestamp + locationExpiryMs < now then none else some (f.lat, f.lon)

/-!
## Dispatch core (`routes/sms.ts`, `handleActiveUserMessage`)

The external collaborators (LLM completion, Overpass place search,
weather client, static POI dataset) are pure inputs here: an `Env` of
oracle replies.  Outbound SMS sends are recorded as tagged `OutMsg`
values in arrival order; the tag identifies which source send-site fired
and carries the reply text where one is produced.
-/

/-- Collaborator responses for one inbound message. -/
structure Env where
  weatherDetect : Option String
  aiResponse : String
  expandedResponse : String
  imageAnalysis : String
  gpsSearchReply : String
  placeSearchReply : String
  weatherByCoords : String
  nearestCabin : String
  nearestEmergency : String
deriving Repr

/-- One outbound SMS, tagged by the send site in the source. -/
inductive OutMsg where
  | noCredits
  | imageReply (text : String)
  | stopConfirm
  | helpInfo (balance : ℤ)
  | gpsPlaceResult (text : String)
  | weatherAtFix (text : String)
  | nearestStatic (kind text : String)
  | positionSaved
  | placeResult (text : String)
  | shareLocationFirst
  | lastPosition (lat lon : ℚ)
  | noSavedLocation
  | moreCorrective
  | expanded (text : String)
  | weatherReply (text : String)
  | aiReply (text : String)
deriving DecidableEq, Repr

/-- Mutable world visible to the dispatch: the store plus the outbox. -/
structure World where
  db : DB
  sent : List OutMsg
deriving DecidableEq, Repr

/-- `handleNoCredits`: send the buy-more-credits notice. -/
def handleNoCredits (w : World) : World :=
  { w with sent := w.sent ++ [.noCredits] }

/-- `handleImageAnalysis`: credit-gated; on success update the session
with `"[Image] " + question`, debit 1, log a usage transaction, reply. -/
def handleImageAnalysis (env : Env) (now : Nat) (phone : String)
    (userQuestion : String) (w : World) : World :=
  if hasCredits w.db phone 1 = false then handleNoCredits w
  else
    let db1 := updateSession w.db phone (some ("[Image] " ++ userQuestion))
      env.imageAnalysis now
    let db2 := (deductCredits db1 phone 1).2
    let db3 := logTransaction db2 phone .usage (-1) "AI conversation (image analysis)"
    { db := db3, sent := w.sent ++ [.imageReply env.imageAnalysis] }

/-- `handleStopCommand`. -/
def handleStopCommand (phone : String) (w : World) : World :=
  { db := deactivateUser w.db phone, sent := w.sent ++ [.stopConfirm] }

/-- `handleHelpCommand`: reply with the balance summary. -/
def handleHelpCommand (phone : String) (w : World) : World :=
  let credits := match getUser w.db phone with
    | some u => u.credits_remaining
    | none => 0
  { w with sent := w.sent ++ [.helpInfo credits] }

/-- `handleLocationQuery` (WHERE AM I). -/
def handleLocationQuery (now : Nat) (phone : String) (w : World) : World :=
  match getLastLocation w.db phone now with
  | none => { w with sent := w.sent ++ [.noSavedLocation] }
  | some (la, lo) => { w with sent := w.sent ++ [.lastPosition la lo] }

/-- `handleMoreCommand`: corrective message when the session has no
last reply or no messages; otherwise overwrite the last reply with the
expansion (no message appended) and send it. -/
def handleMoreCommand (env : Env) (now : Nat) (phone : String) (w : World) : World :=
  let ctx := getContext w.db phone now
  if ctx.2.isNone || ctx.1.isEmpty then
    { w with sent := w.sent ++ [.moreCorrective] }
  else
    let db1 := updateSession w.db phone none env.expandedResponse now
    { db := db1, sent := w.sent ++ [.expanded env.expandedResponse] }

/-- `handleGPSMessage`: persist the fix, then exactly one of place
search (no credit interaction), weather-at-fix, static nearest-POI, or
the position-saved confirmation. -/
def handleGPSMessage (env : Env) (now : Nat) (phone : String)
    (location : ParsedLocation) (originalMessage : String) (w : World) : World :=
  let db1 := saveLocation w.db phone location.coordinates.lat location.coordinates.lon now
  let followUp := originalMessage.data.map jsToLower
  match parseCategoryFromQueryL followUp with
  | some _ =>
    { db := db1, sent := w.sent ++ [.gpsPlaceResult env.gpsSearchReply] }
  | none =>
    if containsSub "väder".data followUp || containsSub "weather".data followUp then
      { db := db1, sent := w.sent ++ [.weatherAtFix env.weatherByCoords] }
    else if containsSub "närmaste".data followUp || containsSub "nearest".data followUp ||
        containsSub "skydd".data followUp || containsSub "shelter".data followUp ||
        containsSub "stuga".data followUp || containsSub "cabin".data followUp then
      { db := db1, sent := w.sent ++ [.nearestStatic "cabin" env.nearestCabin] }
    else if containsSub "nöd".data followUp || containsSub "emergency".data followUp ||
        containsSub "hjälp".data followUp then
      { db := db1, sent := w.sent ++ [.nearestStatic "emergency" env.nearestEmergency] }
    else
      { db := db1, sent := w.sent ++ [.positionSaved] }

/-- `handlePlaceSearch`: `false` means "not a place search, let later
branches run".  With a keyword and category but no stored fix, ask for a
location (free).  Otherwise the reply is credit-gated at 1 credit. -/
def handlePlaceSearch (env : Env) (now : Nat) (phone : String)
    (messageBody : String) (w : World) : Bool × World :=
  if hasPlaceKeyword messageBody = false then (false, w)
  else
    match parseCategoryFromQueryL messageBody.data with
    | none => (false, w)
    | some _ =>
      match getLastLocation w.db phone now with
      | none => (true, { w with sent := w.sent ++ [.shareLocationFirst] })
      | some _ =>
        if hasCredits w.db phone 1 = false then (true, handleNoCredits w)
        else
          let db1 := (deductCredits w.db phone 1).2
          let db2 := logTransaction db1 phone .usage (-1) "Place search"
          let db3 := updateSession db2 phone (some messageBody) env.placeSearchReply now
          (true, { db := db3, sent := w.sent ++ [.placeResult env.placeSearchReply] })

/-- `handleActiveUserMessage`: the branch cascade for an active,
rate-limit-cleared identity, in source order.  `media` carries the MMS
attachment URL and content type when present. -/
def handleActiveUserMessage (env : Env) (now : Nat) (phone : String)
    (messageBody : String) (media : Option (String × String)) (w : World) : World :=
  if (match media with
      | some (_, mtype) => startsWithCh "image/".data mtype.data
      | none => false) then
    handleImageAnalysis env now phone
      (if messageBody == "" then "What is this?" else messageBody) w
  else if messageBody == "" || (trimJS messageBody.data).isEmpty then w
  else if isStopCommand messageBody then handleStopCommand phone w
  else if isHelpCommand messageBody then handleHelpCommand phone w
  else
    match parseLocation messageBody with
    | some loc => handleGPSMessage env now phone loc messageBody w
    | none =>
      let ps := handlePlaceSearch env now phone messageBody w
      if ps.1 then ps.2
      else if isLocationQueryCommand messageBody then handleLocationQuery now phone w
      else if isMoreCommand messageBody then
        if hasCredits w.db phone 1 = false then handleNoCredits w
        else
          let w1 := handleMoreCommand env now phone w
          let db1 := (deductCredits w1.db phone 1).2
          let db2 := logTransaction db1 phone .usage (-1) "Expanded response (MORE)"
          { w1 with db := db2 }
      else
        match env.weatherDetect with
        | some wr =>
          if hasCredits w.db phone 1 = false then handleNoCredits w
          else
            let db1 := (deductCredits w.db phone 1).2
            let db2 := logTransaction db1 phone .usage (-1) "Weather query"
            let db3 := updateSession db2 phone (some messageBody) wr now
            { db := db3, sent := w.sent ++ [.weatherReply wr] }
        | none =>
          if hasCredits w.db phone 1 = false then handleNoCredits w
          else
            let db1 := updateSession w.db phone (some messageBody) env.aiResponse now
            let db2 := (deductCredits db1 phone 1).2
            let db3 := logTransaction db2 phone .usage (-1) "AI conversation"
            { db := db3, sent := w.sent ++ [.aiReply env.aiResponse] }

/-!
## Append runs over the session store (for the message-window claim)
-/

/-- A run of message appends: each element is (user message, AI reply,
arrival time), applied through `updateSession` with a present user
message — the mutation performed by the AI-conversation, weather and
place-search branches. -/
def runAppends (db : DB) (phone : String) : List (String × String × Nat) → DB
  | [] => db
  | (m, r, t) :: ops => runAppends (updateSession db phone (some m) r t) phone ops

/-- The appends stay inside one unexpired session: each arrival is at
most 30 minutes after the previous one. -/
def chainOK : Nat → List (String × String × Nat) → Bool
  | _, [] => true
  | tprev, (_, _, t) :: ops => decide (t ≤ tprev + sessionTimeoutMs) && chainOK t ops

/-!
## Library lemmas about the accessors
-/

/-- Lookup in the keyed map underlying `mapCredits`: the found entry is
transformed and nothing else. -/
theorem lookupUser_mapCredits (phone : String) (f : ℤ → ℤ) :
    ∀ users : List (String × UserRow),
      lookupUser (users.map (fun u => if u.1 == phone then
          (u.1, { u.2 with credits_remaining := f u.2.credits_remaining }) else u)) phone =
      (lookupUser users phone).map
        (fun v => { v with credits_remaining := f v.credits_remaining })
  | [] => rfl
  | (k, v) :: tl => by
    by_cases hk : (k == phone) = true
    · rw [List.map_cons, if_pos hk]
      simp only [lookupUser]
      rw [if_pos hk, if_pos hk]
      rfl
    · rw [List.map_cons, if_neg hk]
      simp only [lookupUser]
      rw [if_neg hk, if_neg hk]
      exact lookupUser_mapCredits phone f tl

/-- Reading a user back after `mapCredits`. -/
theorem getUser_mapCredits (db : DB) (phone : String) (f : ℤ → ℤ) :
    getUser (mapCredits db phone f) phone =
      (getUser db phone).map (fun v => { v with credits_remaining := f v.credits_remaining }) := by
  unfold getUser mapCredits
  exact lookupUser_mapCredits phone f db.users

/-!
## Claim theorems
-/

/-- C4: `deductCredits` returns `false` and leaves the store untouched
when the balance is below the amount; otherwise it returns `true` and
subtracts exactly the amount; and starting from a nonnegative balance no
debit can drive the balance negative. -/
theorem deductCredits_spec (db : DB) (phone : String) (u : UserRow) (n : ℤ)
    (h : getUser db phone = some u) :
    (u.credits_remaining < n → deductCredits db phone n = (false, db)) ∧
    (n ≤ u.credits_remaining →
      (deductCredits db phone n).1 = true ∧
      getUser (deductCredits db phone n).2 phone =
        some { u with credits_remaining := u.credits_remaining - n }) ∧
    (0 ≤ u.credits_remaining →
      ∀ v, getUser (deductCredits db phone n).2 phone = some v → 0 ≤ v.credits_remaining) := by
  have hstep : deductCredits db phone n =
      if u.credits_remaining < n then (false, db)
      else (true, mapCredits db phone (fun b => b - n)) := by
    unfold deductCredits
    rw [h]
  have hfalse : u.credits_remaining < n → deductCredits db phone n = (false, db) := by
    intro hlt
    rw [hstep, if_pos hlt]
  have htrue : ¬u.credits_remaining < n →
      deductCredits db phone n = (true, mapCredits db phone (fun b => b - n)) := by
    intro hle
    rw [hstep, if_neg hle]
  refine ⟨hfalse, ?_, ?_⟩
  · intro hle
    rw [htrue (not_lt.mpr hle)]
    refine ⟨rfl, ?_⟩
    rw [getUser_mapCredits, h]
    rfl
  · intro h0 v hv
    by_cases hlt : u.credits_remaining < n
    · rw [hfalse hlt, h] at hv
      cases hv
      exact h0
    · rw [htrue hlt] at hv
      rw [getUser_mapCredits, h] at hv
      have hv' : some ({ u with credits_remaining := u.credits_remaining - n } : UserRow) =
          some v := hv
      cases hv'
      show 0 ≤ u.credits_remaining - n
      omega

/-- Witness for C4 at a concrete store: balance 5, debit 7 fails and
preserves the store; debit 3 succeeds leaving balance 2. -/
theorem deductCredits_spec_witness :
    deductCredits ⟨[("a", ⟨.active, 5⟩)], [], []⟩ "a" 7 =
      (false, ⟨[("a", ⟨.active, 5⟩)], [], []⟩) ∧
    (deductCredits ⟨[("a", ⟨.active, 5⟩)], [], []⟩ "a" 3).1 = true ∧
    getUser (deductCredits ⟨[("a", ⟨.active, 5⟩)], [], []⟩ "a" 3).2 "a" =
      some ⟨.active, 2⟩ := by
  have h7 := deductCredits_spec ⟨[("a", ⟨.active, 5⟩)], [], []⟩ "a" ⟨.active, 5⟩ 7 (by decide)
  have h3 := deductCredits_spec ⟨[("a", ⟨.active, 5⟩)], [], []⟩ "a" ⟨.active, 5⟩ 3 (by decide)
  exact ⟨h7.1 (by decide), (h3.2.1 (by decide)).1, (h3.2.1 (by decide)).2⟩

/-- C10: for an identity with no account row, `hasCredits` is `false`
for every required amount and `deductCredits` is a no-op returning
`false`. -/
theorem unknown_identity_credit_ops (db : DB) (phone : String) (n m : ℤ)
    (h : getUser db phone = none) :
    hasCredits db phone n = false ∧ deductCredits db phone m = (false, db) := by
  constructor
  · unfold hasCredits
    rw [h]
  · unfold deductCredits
    rw [h]

/-- Witness for C10 on the empty store. -/
theorem unknown_identity_credit_ops_witness :
    hasCredits ⟨[], [], []⟩ "x" 1 = false ∧
    deductCredits ⟨[], [], []⟩ "x" 1 = (false, ⟨[], [], []⟩) :=
  unknown_identity_credit_ops ⟨[], [], []⟩ "x" 1 1 rfl

/-- C7: the Swedish decimal-comma form and the decimal-point form parse
to the identical fix (59.3293, 18.0686), and "91,200" — whose only
regex match reads latitude 91 — fails validation and does not parse. -/
theorem gps_parsing_examples :
    (parseLocation "59,3293, 18,0686").map (fun p => p.coordinates) =
      some ⟨Rat.divInt 593293 10000, Rat.divInt 180686 10000⟩ ∧
    (parseLocation "59.3293,18.0686").map (fun p => p.coordinates) =
      some ⟨Rat.divInt 593293 10000, Rat.divInt 180686 10000⟩ ∧
    parseLocation "91,200" = none :=
  ⟨by decide, by decide, by decide⟩

/-- C8 counterexample: the classifier does not accept the
question-marked forms of "my location" and "min position" (the claim
says every phrase is recognized with a trailing "?"). -/
theorem locationQuery_no_question_mark_variants :
    isLocationQueryCommand "my location?" = false ∧
    isLocationQueryCommand "min position?" = false := by
  exact ⟨by decide, by decide⟩

/-- C8 amended: after trimming and case-folding the classifier accepts
exactly the four phrases, with the trailing "?" variant only for
"where am i" and "var är jag". -/
theorem isLocationQueryCommand_characterization (s : String) :
    isLocationQueryCommand s = true ↔
      (normalizeCmd s = "where am i".data ∨ normalizeCmd s = "where am i?".data ∨
       normalizeCmd s = "var är jag".data ∨ normalizeCmd s = "var är jag?".data ∨
       normalizeCmd s = "my location".data ∨ normalizeCmd s = "min position".data) := by
  unfold isLocationQueryCommand
  simp only [Bool.or_eq_true, beq_iff_eq]
  tauto

/-- Witness for C8's amended characterization: the mixed-case,
question-marked "Where am I?" is accepted via the characterization. -/
theorem isLocationQueryCommand_characterization_witness :
    isLocationQueryCommand "Where am I?" = true :=
  (isLocationQueryCommand_characterization "Where am I?").mpr (by decide)

/-- `isAllowed` on a present entry, in `if` form. -/
theorem isAllowed_some (maxL dur t c reset : Nat) :
    isAllowed maxL dur t (some ⟨c, reset⟩) =
      if reset < t then (true, some ⟨1, t + dur⟩)
      else if maxL ≤ c then (false, some ⟨c, reset⟩)
      else (true, some ⟨c + 1, reset⟩) := rfl

/-- `isAllowed` on a missing entry. -/
theorem isAllowed_none (maxL dur t : Nat) :
    isAllowed maxL dur t none = (true, some ⟨1, t + dur⟩) := rfl

/-- Unfolding `runIsAllowed` over one call. -/
theorem runIsAllowed_cons (maxL dur : Nat) (e : Option RLEntry) (t : Nat) (ts : List Nat) :
    runIsAllowed maxL dur e (t :: ts) =
      ((isAllowed maxL dur t e).1 ::
         (runIsAllowed maxL dur (isAllowed maxL dur t e).2 ts).1,
       (runIsAllowed maxL dur (isAllowed maxL dur t e).2 ts).2) := rfl

/-- A denied call never modifies the entry. -/
theorem isAllowed_denied_preserves (maxL dur t : Nat) (e : Option RLEntry)
    (h : (isAllowed maxL dur t e).1 = false) : (isAllowed maxL dur t e).2 = e := by
  cases e with
  | none => rw [isAllowed_none] at h ⊢; cases h
  | some e' =>
    obtain ⟨c, r⟩ := e'
    rw [isAllowed_some] at h ⊢
    split_ifs at h ⊢
    all_goals simp_all

/-- Calls inside the window while the counter is under the maximum are
all allowed and each increments the counter by one. -/
theorem runIsAllowed_under_max (maxL dur reset : Nat) :
    ∀ (ts : List Nat) (c : Nat), c + ts.length ≤ maxL → (∀ t ∈ ts, t ≤ reset) →
      runIsAllowed maxL dur (some ⟨c, reset⟩) ts =
        (List.replicate ts.length true, some ⟨c + ts.length, reset⟩)
  | [], c, _, _ => rfl
  | t :: ts, c, hle, hts => by
    simp only [List.length_cons] at hle
    have ht : t ≤ reset := hts t (List.mem_cons_self t ts)
    have hstep : isAllowed maxL dur t (some ⟨c, reset⟩) = (true, some ⟨c + 1, reset⟩) := by
      rw [isAllowed_some, if_neg (by omega), if_neg (by omega)]
    rw [runIsAllowed_cons, hstep]
    rw [runIsAllowed_under_max maxL dur reset ts (c + 1) (by omega)
      (fun t' ht' => hts t' (List.mem_cons_of_mem t ht'))]
    simp only [List.length_cons, List.replicate_succ]
    rw [show c + 1 + ts.length = c + (ts.length + 1) from by omega]

/-- C6 (amended: maximum at least 1): starting a fresh window period at
`t0`, the run of `max` calls within the period is fully allowed and
leaves the counter at `max`; one more call within the period is denied
without touching the entry; a call after the reset time has passed is
allowed again with a fresh counter of 1. -/
theorem rateLimiter_window_cycle (maxL dur t0 tDeny tNext : Nat) (s0 : Option RLEntry)
    (ts : List Nat)
    (hfresh : freshFor s0 t0) (hmax : 1 ≤ maxL) (hlen : ts.length = maxL - 1)
    (hts : ∀ t ∈ ts, t ≤ t0 + dur) (hdeny : tDeny ≤ t0 + dur) (hnext : t0 + dur < tNext) :
    runIsAllowed maxL dur s0 (t0 :: ts) =
      (List.replicate maxL true, some ⟨maxL, t0 + dur⟩) ∧
    isAllowed maxL dur tDeny (some ⟨maxL, t0 + dur⟩) = (false, some ⟨maxL, t0 + dur⟩) ∧
    isAllowed maxL dur tNext (some ⟨maxL, t0 + dur⟩) = (true, some ⟨1, tNext + dur⟩) := by
  have hfirst : isAllowed maxL dur t0 s0 = (true, some ⟨1, t0 + dur⟩) := by
    cases s0 with
    | none => exact isAllowed_none maxL dur t0
    | some e =>
      obtain ⟨c, r⟩ := e
      have hr : r < t0 := hfresh
      rw [isAllowed_some, if_pos hr]
  refine ⟨?_, ?_, ?_⟩
  · rw [runIsAllowed_cons, hfirst]
    rw [runIsAllowed_under_max maxL dur (t0 + dur) ts 1 (by omega) hts]
    rw [hlen]
    rw [show 1 + (maxL - 1) = maxL from by omega]
    have hrep : List.replicate maxL true = true :: List.replicate (maxL - 1) true := by
      cases maxL with
      | zero => omega
      | succ k => simp [List.replicate_succ]
    rw [hrep]
  · rw [isAllowed_some, if_neg (by omega), if_pos (le_refl maxL)]
  · rw [isAllowed_some, if_pos hnext]

/-- C6 counterexample at configured maximum 0: after `max = 0` allowed
calls in a fresh period, the `(max+1)`-th call — the very first — is
allowed and installs a counter of 1, not denied as the claim states. -/
theorem rateLimiter_zero_max_first_call_allowed :
    isAllowed 0 minuteMs 0 none = (true, some ⟨1, minuteMs⟩) := by decide

/-- Witness for C6's amended theorem: maximum 2, minute window, calls at
0 and 10 allowed, a third call at 20 denied, a call at 70000 (after
reset) allowed afresh. -/
theorem rateLimiter_window_cycle_witness :
    runIsAllowed 2 60000 none [0, 10] = ([true, true], some ⟨2, 60000⟩) ∧
    isAllowed 2 60000 20 (some ⟨2, 60000⟩) = (false, some ⟨2, 60000⟩) ∧
    isAllowed 2 60000 70000 (some ⟨2, 60000⟩) = (true, some ⟨1, 130000⟩) := by
  have h := rateLimiter_window_cycle 2 60000 0 20 70000 none [10]
    trivial (by omega) (by decide) (by decide) (by omega) (by omega)
  simpa using h

/-- `checkLimits` in `if` form. -/
theorem checkLimits_eq (cfg : RateLimiterConfig) (now : Nat) (st : RLState) :
    checkLimits cfg now st =
      if (isAllowed cfg.maxPerMinute minuteMs now st.minute).1 = false then
        (some .minute, { st with minute := (isAllowed cfg.maxPerMinute minuteMs now st.minute).2 })
      else if (isAllowed cfg.maxPerHour hourMs now st.hour).1 = false then
        (some .hour,
         { st with minute := (isAllowed cfg.maxPerMinute minuteMs now st.minute).2,
                   hour := (isAllowed cfg.maxPerHour hourMs now st.hour).2 })
      else if (isAllowed cfg.maxPerDay dayMs now st.day).1 = false then
        (some .day,
         { st with minute := (isAllowed cfg.maxPerMinute minuteMs now st.minute).2,
                   hour := (isAllowed cfg.maxPerHour hourMs now st.hour).2,
                   day := (isAllowed cfg.maxPerDay dayMs now st.day).2 })
      else
        (none,
         { st with minute := (isAllowed cfg.maxPerMinute minuteMs now st.minute).2,
                   hour := (isAllowed cfg.maxPerHour hourMs now st.hour).2,
                   day := (isAllowed cfg.maxPerDay dayMs now st.day).2 }) := rfl

/-- C9: when `checkLimits` is denied at a window, every window checked
before it in the minute→hour→day order has consumed one count (its
entry is the allowed `isAllowed` step, incrementing a live counter),
while every window after it is untouched; a minute-level denial changes
nothing. -/
theorem checkLimits_partial_consumption (cfg : RateLimiterConfig) (now : Nat) (st : RLState) :
    ((checkLimits cfg now st).1 = some .minute → (checkLimits cfg now st).2 = st) ∧
    ((checkLimits cfg now st).1 = some .hour →
      (checkLimits cfg now st).2.hour = st.hour ∧
      (checkLimits cfg now st).2.day = st.day ∧
      (isAllowed cfg.maxPerMinute minuteMs now st.minute).1 = true ∧
      (checkLimits cfg now st).2.minute = (isAllowed cfg.maxPerMinute minuteMs now st.minute).2 ∧
      (∀ c r, st.minute = some ⟨c, r⟩ → now ≤ r →
        (checkLimits cfg now st).2.minute = some ⟨c + 1, r⟩)) ∧
    ((checkLimits cfg now st).1 = some .day →
      (checkLimits cfg now st).2.day = st.day ∧
      (isAllowed cfg.maxPerMinute minuteMs now st.minute).1 = true ∧
      (isAllowed cfg.maxPerHour hourMs now st.hour).1 = true ∧
      (checkLimits cfg now st).2.minute = (isAllowed cfg.maxPerMinute minuteMs now st.minute).2 ∧
      (checkLimits cfg now st).2.hour = (isAllowed cfg.maxPerHour hourMs now st.hour).2) := by
  by_cases hm : (isAllowed cfg.maxPerMinute minuteMs now st.minute).1 = false
  · have hres : checkLimits cfg now st =
        (some .minute, { st with minute := (isAllowed cfg.maxPerMinute minuteMs now st.minute).2 }) := by
      rw [checkLimits_eq, if_pos hm]
    refine ⟨?_, ?_, ?_⟩
    · intro _
      rw [hres]
      show ({ st with minute := (isAllowed cfg.maxPerMinute minuteMs now st.minute).2 } : RLState) = st
      rw [isAllowed_denied_preserves _ _ _ _ hm]
    · intro habs
      rw [hres] at habs
      cases habs
    · intro habs
      rw [hres] at habs
      cases habs
  · by_cases hh : (isAllowed cfg.maxPerHour hourMs now st.hour).1 = false
    · have hres : checkLimits cfg now st =
          (some .hour,
           { st with minute := (isAllowed cfg.maxPerMinute minuteMs now st.minute).2,
                     hour := (isAllowed cfg.maxPerHour hourMs now st.hour).2 }) := by
        rw [checkLimits_eq, if_neg hm, if_pos hh]
      refine ⟨?_, ?_, ?_⟩
      · intro habs
        rw [hres] at habs
        cases habs
      · intro _
        rw [hres]
        refine ⟨isAllowed_denied_preserves _ _ _ _ hh, rfl,
          Bool.eq_true_of_not_eq_false hm, rfl, ?_⟩
        intro c r hmin hnow
        rw [hmin]
        rw [isAllowed_some, if_neg (by omega)]
        by_cases hc : cfg.maxPerMinute ≤ c
        · exfalso
          apply hm
          rw [hmin, isAllowed_some, if_neg (by omega), if_pos hc]
        · rw [if_neg hc]
      · intro habs
        rw [hres] at habs
        cases habs
    · by_cases hd : (isAllowed cfg.maxPerDay dayMs now st.day).1 = false
      · have hres : checkLimits cfg now st =
            (some .day,
             { st with minute := (isAllowed cfg.maxPerMinute minuteMs now st.minute).2,
                       hour := (isAllowed cfg.maxPerHour hourMs now st.hour).2,
                       day := (isAllowed cfg.maxPerDay dayMs now st.day).2 }) := by
          rw [checkLimits_eq, if_neg hm, if_neg hh, if_pos hd]
        refine ⟨?_, ?_, ?_⟩
        · intro habs
          rw [hres] at habs
          cases habs
        · intro habs
          rw [hres] at habs
          cases habs
        · intro _
          rw [hres]
          exact ⟨isAllowed_denied_preserves _ _ _ _ hd,
            Bool.eq_true_of_not_eq_false hm, Bool.eq_true_of_not_eq_false hh, rfl, rfl⟩
      · have hres : checkLimits cfg now st =
            (none,
             { st with minute := (isAllowed cfg.maxPerMinute minuteMs now st.minute).2,
                       hour := (isAllowed cfg.maxPerHour hourMs now st.hour).2,
                       day := (isAllowed cfg.maxPerDay dayMs now st.day).2 }) := by
          rw [checkLimits_eq, if_neg hm, if_neg hh, if_neg hd]
        refine ⟨?_, ?_, ?_⟩ <;>
          · intro habs
            rw [hres] at habs
            cases habs

/-- Witness for C9: a minute window at 2/5, an exhausted hour window at
30/30 — the call is denied at the hour level, yet the minute counter has
risen to 3 and the day window is untouched. -/
theorem checkLimits_partial_consumption_witness :
    (checkLimits ⟨5, 30, 200⟩ 50 ⟨some ⟨2, 100⟩, some ⟨30, 100⟩, some ⟨7, 100⟩⟩).2.minute =
      some ⟨3, 100⟩ ∧
    (checkLimits ⟨5, 30, 200⟩ 50 ⟨some ⟨2, 100⟩, some ⟨30, 100⟩, some ⟨7, 100⟩⟩).2.day =
      some ⟨7, 100⟩ := by
  have h := (checkLimits_partial_consumption ⟨5, 30, 200⟩ 50
    ⟨some ⟨2, 100⟩, some ⟨30, 100⟩, some ⟨7, 100⟩⟩).2.1 (by decide)
  exact ⟨h.2.2.2.2 2 100 rfl (by omega), h.2.1⟩

/-- C1 (code bug): an active identity with 1 credit and no session sends
"more".  The corrective message is the only reply, yet `deductCredits`
and `logTransaction` still run afterwards: the balance drops from 1 to 0
and a usage transaction is recorded for an expansion that was never
produced. -/
theorem more_without_reply_still_debits :
    handleActiveUserMessage ⟨none, "a", "e", "i", "g", "p", "w", "c", "m"⟩ 1000
      "+46700000001" "more" none ⟨⟨[("+46700000001", ⟨.active, 1⟩)], [], []⟩, []⟩ =
    ⟨⟨[("+46700000001", ⟨.active, 0⟩)], [],
      [⟨"+46700000001", .usage, -1, "Expanded response (MORE)"⟩]⟩,
     [.moreCorrective]⟩ := by decide

/-- C2 counterexample: an active identity with 5 credits sends a Google
Maps link followed by "hitta sjukhus".  The nearby-search reply goes out
but the balance stays at 5 and no usage transaction is logged — the
GPS-path place search is not credit-gated as claimed. -/
theorem gps_place_search_unmetered_counterexample :
    handleActiveUserMessage ⟨none, "a", "e", "i", "g", "p", "w", "c", "m"⟩ 1000
      "+46700000001" "maps.google.com/?q=59.3293,18.0686 hitta sjukhus" none
      ⟨⟨[("+46700000001", ⟨.active, 5⟩)], [], []⟩, []⟩ =
    ⟨⟨[("+46700000001", ⟨.active, 5⟩)], [], []⟩, [.gpsPlaceResult "g"]⟩ := by decide

/-- C2 amended: whenever the message parses to GPS coordinates and its
text resolves a place-search category, the dispatch saves the fix and
sends the nearby-search reply with no credit interaction whatsoever: no
balance check, no debit, no transaction — independent of the identity's
balance (even zero). -/
theorem gps_place_search_unmetered (env : Env) (now : Nat) (phone messageBody : String)
    (w : World) (loc : ParsedLocation) (cat : POICategory)
    (hparse : parseLocation messageBody = some loc)
    (hcat : parseCategoryFromQueryL (messageBody.data.map jsToLower) = some cat)
    (hne : (trimJS messageBody.data).isEmpty = false)
    (hstop : isStopCommand messageBody = false)
    (hhelp : isHelpCommand messageBody = false) :
    handleActiveUserMessage env now phone messageBody none w =
      ⟨saveLocation w.db phone loc.coordinates.lat loc.coordinates.lon now,
       w.sent ++ [.gpsPlaceResult env.gpsSearchReply]⟩ ∧
    (handleActiveUserMessage env now phone messageBody none w).db.users = w.db.users ∧
    (handleActiveUserMessage env now phone messageBody none w).db.transactions =
      w.db.transactions := by
  have hmb : (messageBody == "") = false := by
    cases hmb : messageBody == "" with
    | false => rfl
    | true =>
      exfalso
      have : messageBody = "" := by simpa using hmb
      rw [this] at hne
      exact absurd hne (by decide)
  have key : handleActiveUserMessage env now phone messageBody none w =
      handleGPSMessage env now phone loc messageBody w := by
    unfold handleActiveUserMessage
    rw [hmb, hne, hstop, hhelp, hparse]
    rfl
  have key2 : handleGPSMessage env now phone loc messageBody w =
      ⟨saveLocation w.db phone loc.coordinates.lat loc.coordinates.lon now,
       w.sent ++ [.gpsPlaceResult env.gpsSearchReply]⟩ := by
    simp only [handleGPSMessage, hcat]
  refine ⟨key.trans key2, ?_, ?_⟩ <;> rw [key, key2] <;> rfl

/-- Witness for C2's amended theorem at the counterexample input. -/
theorem gps_place_search_unmetered_witness :
    (handleActiveUserMessage ⟨none, "a", "e", "i", "g", "p", "w", "c", "m"⟩ 1000
      "+46700000001" "maps.google.com/?q=59.3293,18.0686 hitta sjukhus" none
      ⟨⟨[("+46700000001", ⟨.active, 5⟩)], [], []⟩, []⟩).db.users =
      [("+46700000001", ⟨.active, 5⟩)] ∧
    (handleActiveUserMessage ⟨none, "a", "e", "i", "g", "p", "w", "c", "m"⟩ 1000
      "+46700000001" "maps.google.com/?q=59.3293,18.0686 hitta sjukhus" none
      ⟨⟨[("+46700000001", ⟨.active, 5⟩)], [], []⟩, []⟩).db.transactions = [] := by
  have h := gps_place_search_unmetered ⟨none, "a", "e", "i", "g", "p", "w", "c", "m"⟩ 1000
    "+46700000001" "maps.google.com/?q=59.3293,18.0686 hitta sjukhus"
    ⟨⟨[("+46700000001", ⟨.active, 5⟩)], [], []⟩, []⟩
    ⟨⟨Rat.divInt 593293 10000, Rat.divInt 180686 10000⟩, .google_maps,
      "maps.google.com/?q=59.3293,18.0686 hitta sjukhus".data⟩
    .hospital (by decide) (by decide) (by decide) (by decide) (by decide)
  exact ⟨h.2.1, h.2.2⟩

/-- The filtered session rows of an identity none of whose rows are in
the list. -/
theorem filter_phone_nil (others : List SessionRow) (phone : String)
    (h : ∀ r ∈ others, r.phone ≠ phone) :
    others.filter (fun r => r.phone == phone) = [] := by
  induction others with
  | nil => rfl
  | cons hd tl ih =>
    rw [List.filter_cons,
      if_neg (by simpa using h hd (List.mem_cons_self hd tl))]
    exact ih (fun r hr => h r (List.mem_cons_of_mem hd hr))

/-- `latestSessionRow` when the identity has no rows. -/
theorem latestSessionRow_none (rows : List SessionRow) (phone : String)
    (h : ∀ r ∈ rows, r.phone ≠ phone) :
    latestSessionRow rows phone = none := by
  unfold latestSessionRow
  rw [filter_phone_nil rows phone h]
  rfl

/-- `latestSessionRow` when the identity owns exactly the final row. -/
theorem latestSessionRow_append_single (others : List SessionRow) (phone : String)
    (row : SessionRow) (hothers : ∀ r ∈ others, r.phone ≠ phone)
    (hrow : row.phone = phone) :
    latestSessionRow (others ++ [row]) phone = some row := by
  unfold latestSessionRow
  rw [List.filter_append, filter_phone_nil others phone hothers,
    List.filter_cons, if_pos (by simpa using hrow)]
  rfl

/-- Mapping a function that fixes every element of a list. -/
theorem map_id_of_skip : ∀ (l : List SessionRow) (f : SessionRow → SessionRow),
    (∀ r ∈ l, f r = r) → l.map f = l
  | [], _, _ => rfl
  | hd :: tl, f, h => by
    rw [List.map_cons, h hd (List.mem_cons_self hd tl),
      map_id_of_skip tl f (fun r hr => h r (List.mem_cons_of_mem hd hr))]

/-- The seed of a `max` fold is a lower bound of the result. -/
theorem le_foldl_max (l : List Nat) : ∀ a : Nat, a ≤ l.foldl max a := by
  induction l with
  | nil => exact fun a => le_refl a
  | cons hd tl ih =>
    intro a
    calc a ≤ max a hd := le_max_left a hd
    _ ≤ tl.foldl max (max a hd) := ih (max a hd)

/-- Every member of a list bounds into its `max` fold. -/
theorem mem_le_foldl_max (l : List Nat) : ∀ x a : Nat, x ∈ l → x ≤ l.foldl max a := by
  induction l with
  | nil => intro x a hx; cases hx
  | cons hd tl ih =>
    intro x a hx
    rcases List.mem_cons.mp hx with h | h
    · subst h
      calc x ≤ max a x := le_max_right a x
      _ ≤ tl.foldl max (max a x) := le_foldl_max tl (max a x)
    · exact ih x (max a hd) h

/-- A fresh SERIAL id collides with no existing row. -/
theorem freshId_not_mem (rows : List SessionRow) : ∀ r ∈ rows, r.id ≠ freshId rows := by
  intro r hr
  unfold freshId
  have : r.id ≤ (rows.map (fun r => r.id)).foldl max 0 :=
    mem_le_foldl_max _ r.id 0 (List.mem_map_of_mem _ hr)
  omega

/-- FIFO step against the kept-suffix form: pushing onto the last three
of `ms` is the last three of `ms ++ [m]`. -/
theorem pushMessage_drop (ms : List String) (m : String) :
    pushMessage (ms.drop (ms.length - 3)) m = (ms ++ [m]).drop ((ms ++ [m]).length - 3) := by
  unfold pushMessage maxMessages
  rw [List.length_append, List.length_singleton]
  by_cases h : ms.length ≤ 2
  · rw [show ms.length - 3 = 0 from by omega, List.drop_zero]
    rw [if_neg (by rw [List.length_append, List.length_singleton]; omega)]
    rw [show ms.length + 1 - 3 = 0 from by omega, List.drop_zero]
  · have hlen : (ms.drop (ms.length - 3)).length = 3 := by
      rw [List.length_drop]; omega
    rw [if_pos (by rw [List.length_append, List.length_singleton, hlen]; omega)]
    rw [List.length_append, List.length_singleton, hlen]
    rw [show 3 + 1 - 3 = 1 from rfl]
    rw [List.drop_append_of_le_length (by rw [hlen]; omega)]
    rw [List.drop_drop]
    rw [show ms.length - 3 + 1 = ms.length - 2 from by omega]
    rw [show ms.length + 1 - 3 = ms.length - 2 from by omega]
    rw [List.drop_append_of_le_length (by omega : ms.length - 2 ≤ ms.length)]

/-- The FIFO fold keeps exactly the last three appended messages. -/
theorem foldl_pushMessage (ms : List String) :
    List.foldl pushMessage [] ms = ms.drop (ms.length - 3) := by
  induction ms using List.reverseRecOn with
  | nil => rfl
  | append_singleton ms m ih =>
    rw [List.foldl_append, ih, List.foldl_cons, List.foldl_nil]
    exact pushMessage_drop ms m

/-- Unfolding `runAppends` over one inbound message. -/
theorem runAppends_cons (db : DB) (phone m r : String) (t : Nat)
    (ops : List (String × String × Nat)) :
    runAppends db phone ((m, r, t) :: ops) =
      runAppends (updateSession db phone (some m) r t) phone ops := rfl

/-- `updateSession` with a live session and a present user message:
push the message onto that row's window, overwrite the reply, refresh
the timestamp. -/
theorem updateSession_some (db : DB) (phone m aiR : String) (now : Nat)
    (s : SessionRow) (h : getSession db phone now = some s) :
    updateSession db phone (some m) aiR now =
      { db with sessions := db.sessions.map (fun rr =>
          if rr.id == s.id then
            { rr with messages := pushMessage s.messages m,
                      last_ai_response := some aiR, updated_at := now }
          else rr) } := by
  unfold updateSession
  rw [h]

/-- Running appends against a store whose only row for the identity is
the final one: the run walks that single row, leaving every other row,
the users and the transactions untouched, and folds the FIFO push over
the row's message window. -/
theorem runAppends_existing (phone : String) :
    ∀ (ops : List (String × String × Nat)) (users : List (String × UserRow))
      (txns : List Txn) (others : List SessionRow) (row : SessionRow),
      row.phone = phone →
      (∀ r ∈ others, r.phone ≠ phone) →
      (∀ r ∈ others, r.id ≠ row.id) →
      chainOK row.updated_at ops = true →
      ∃ row2,
        runAppends ⟨users, others ++ [row], txns⟩ phone ops = ⟨users, others ++ [row2], txns⟩ ∧
        row2.phone = phone ∧ row2.id = row.id ∧
        row2.messages = ops.foldl (fun acc o => pushMessage acc o.1) row.messages
  | [], users, txns, others, row, hphone, _, _, _ =>
    ⟨row, rfl, hphone, rfl, rfl⟩
  | (m, r, t) :: ops, users, txns, others, row, hphone, hothers, hids, hchain => by
    simp only [chainOK, Bool.and_eq_true, decide_eq_true_eq] at hchain
    obtain ⟨ht, hchain⟩ := hchain
    have hlatest : latestSessionRow (others ++ [row]) phone = some row :=
      latestSessionRow_append_single others phone row hothers hphone
    have hget : getSession ⟨users, others ++ [row], txns⟩ phone t = some row := by
      unfold getSession
      rw [hlatest]
      show (if isSessionExpired t row = true then none else some row) = some row
      rw [if_neg (by simp only [isSessionExpired, decide_eq_true_eq]; omega)]
    have hstep : updateSession ⟨users, others ++ [row], txns⟩ phone (some m) r t =
        ⟨users, others ++
          [SessionRow.mk row.id row.phone (pushMessage row.messages m) (some r)
            row.last_location t], txns⟩ := by
      rw [updateSession_some _ _ _ _ _ _ hget]
      simp only [List.map_append, List.map_cons, List.map_nil]
      rw [map_id_of_skip others _
        (fun rr hrr => if_neg (by simpa using hids rr hrr))]
      rw [if_pos (by simp)]
    rw [runAppends_cons, hstep]
    obtain ⟨row2, hrun, hph2, hid2, hmsgs2⟩ :=
      runAppends_existing phone ops users txns others
        (SessionRow.mk row.id row.phone (pushMessage row.messages m) (some r)
          row.last_location t)
        hphone hothers hids hchain
    exact ⟨row2, hrun, hph2, hid2, hmsgs2⟩

/-- C5: starting from a store with no rows for the identity, a session
creation followed by any number of in-window appends leaves the
identity's (single) live session holding exactly the last `min(N, 3)`
appended user messages in arrival order, never more than three. -/
theorem session_window_last_three (db0 : DB) (phone m1 r1 : String) (t1 : Nat)
    (rest : List (String × String × Nat))
    (hphone : ∀ r ∈ db0.sessions, r.phone ≠ phone)
    (hchain : chainOK t1 rest = true) :
    ∃ s, latestSessionRow (runAppends db0 phone ((m1, r1, t1) :: rest)).sessions phone = some s ∧
      s.messages =
        (m1 :: rest.map (fun o => o.1)).drop ((m1 :: rest.map (fun o => o.1)).length - 3) ∧
      s.messages.length = min (m1 :: rest.map (fun o => o.1)).length 3 ∧
      s.messages.length ≤ 3 := by
  obtain ⟨users, sessions, txns⟩ := db0
  have hphone' : ∀ r ∈ sessions, r.phone ≠ phone := hphone
  have hfirst : updateSession ⟨users, sessions, txns⟩ phone (some m1) r1 t1 =
      ⟨users, sessions ++ [⟨freshId sessions, phone, [m1], none, none, t1⟩], txns⟩ := by
    unfold updateSession getSession
    rw [latestSessionRow_none sessions phone hphone']
    rfl
  rw [runAppends_cons, hfirst]
  obtain ⟨row2, hrun, hph2, hid2, hmsgs2⟩ :=
    runAppends_existing phone rest users txns sessions
      ⟨freshId sessions, phone, [m1], none, none, t1⟩ rfl hphone'
      (freshId_not_mem sessions) hchain
  rw [hrun]
  have hmsgs3 : row2.messages =
      (m1 :: rest.map (fun o => o.1)).drop ((m1 :: rest.map (fun o => o.1)).length - 3) := by
    rw [hmsgs2]
    have hfm : List.foldl (fun acc o => pushMessage acc o.1) [m1] rest
        = List.foldl pushMessage [] (m1 :: rest.map (fun o => o.1)) := by
      rw [List.foldl_cons, List.foldl_map]
      rfl
    exact hfm.trans (foldl_pushMessage (m1 :: rest.map (fun o => o.1)))
  refine ⟨row2, latestSessionRow_append_single sessions phone row2 hphone' hph2, hmsgs3, ?_, ?_⟩
  · rw [hmsgs3, List.length_drop]
    omega
  · rw [hmsgs3, List.length_drop]
    omega

/-- Witness for C5: four appends leave exactly the last three messages
in order. -/
theorem session_window_last_three_witness :
    ∃ s, latestSessionRow (runAppends ⟨[], [], []⟩ "a"
        [("m1", "r1", 0), ("m2", "r2", 1000), ("m3", "r3", 2000), ("m4", "r4", 3000)]).sessions
        "a" = some s ∧
      s.messages = ["m2", "m3", "m4"] := by
  obtain ⟨s, hs, hm, _, _⟩ := session_window_last_three ⟨[], [], []⟩ "a" "m1" "r1" 0
    [("m2", "r2", 1000), ("m3", "r3", 2000), ("m4", "r4", 3000)]
    (by intro r hr; cases hr) (by decide)
  exact ⟨s, hs, by rw [hm]; rfl⟩

/-- C3 (code bug): `saveLocation` is a bare UPDATE.  With no session row
the fix is silently dropped and the immediate read returns nothing; with
a session row present — even one expired for hours — the fix is stored
and immediately readable, so only the no-row case diverges from the
claim. -/
theorem saveLocation_requires_session_row :
    getLastLocation (saveLocation ⟨[("a", ⟨.active, 5⟩)], [], []⟩ "a"
      (Rat.divInt 593293 10000) (Rat.divInt 180686 10000) 7200000) "a" 7200000 = none ∧
    getLastLocation
      (saveLocation ⟨[("a", ⟨.active, 5⟩)], [⟨1, "a", ["hi"], some "r", none, 0⟩], []⟩ "a"
        (Rat.divInt 593293 10000) (Rat.divInt 180686 10000) 7200000) "a" 7200000 =
      some (Rat.divInt 593293 10000, Rat.divInt 180686 10000) :=
  ⟨by decide, by decide⟩

end Wavee
